import Mathlib

/-!
Verification of the crypto-agility engine of the e2ee chat system.

The development shallowly embeds the TypeScript sources:
 - client/src/crypto/core/types.ts        (algorithm enumeration, error codes)
 - client/src/crypto/core/provider-factory.ts  (CryptoProviderFactory)
 - client/src/crypto/classical/rsa-provider.ts (RSAProvider)
 - client/src/crypto/pqc/ml-kem-provider.ts    (MLKEMProvider)
 - client/src/security/key-mgmt/key-manager.ts (KeyManagementService)
 - client/src/security/monitoring/security-monitor.ts (SecurityMonitorService)
 - client/src/shared/cryptoUtils.ts       (envelope codec)

Platform primitives (Web Crypto ECDH / AES-GCM / RSA-OAEP / SHA-256, the
base64 codec, UTF-8 text codecs, Date.now and crypto.getRandomValues) live
outside the repository.  They are modelled by executable stand-ins that keep
exactly the contracts the repository code relies on, and every random or
time-dependent value a function consumes is passed to it explicitly.
-/

namespace Chat

/-- Algorithm enumeration translating the closed union CryptoAlgorithmType of
crypto/core/types.ts. -/
inductive CryptoAlgorithmType where
  | RSA_OAEP
  | ECDH
  | ML_KEM_512
  | ML_KEM_768
  | ML_KEM_1024
  | CRYSTALS_Dilithium
  | SPHINCS_Plus
  | Hybrid_RSA_ML_KEM
  | Hybrid_ECDH_ML_KEM
  | Hybrid_RSAOAEP_MLKEM512
  | Hybrid_RSAOAEP_MLKEM1024
  deriving DecidableEq, Repr

/-- String name of each algorithm, exactly the string literal of the union in
crypto/core/types.ts; the key manager's derived attributes are computed by
string tests on these names. -/
def CryptoAlgorithmType.name : CryptoAlgorithmType → String
  | .RSA_OAEP => "RSA-OAEP"
  | .ECDH => "ECDH"
  | .ML_KEM_512 => "ML-KEM-512"
  | .ML_KEM_768 => "ML-KEM-768"
  | .ML_KEM_1024 => "ML-KEM-1024"
  | .CRYSTALS_Dilithium => "CRYSTALS-Dilithium"
  | .SPHINCS_Plus => "SPHINCS+"
  | .Hybrid_RSA_ML_KEM => "Hybrid-RSA-ML-KEM"
  | .Hybrid_ECDH_ML_KEM => "Hybrid-ECDH-ML-KEM"
  | .Hybrid_RSAOAEP_MLKEM512 => "Hybrid-RSAOAEP-MLKEM512"
  | .Hybrid_RSAOAEP_MLKEM1024 => "Hybrid-RSAOAEP-MLKEM1024"

/-- SecurityLevel union of crypto/core/types.ts. -/
inductive SecurityLevel where
  | quantum_vulnerable
  | quantum_resistant
  | quantum_safe
  | hybrid
  | low
  | medium
  | high
  | maximum
  deriving DecidableEq, Repr

/-- CryptoErrorCode union of crypto/core/types.ts. -/
inductive CryptoErrorCode where
  | ALGORITHM_NOT_SUPPORTED
  | KEY_GENERATION_FAILED
  | ENCRYPTION_FAILED
  | DECRYPTION_FAILED
  | QUANTUM_THREAT_DETECTED
  | NIST_COMPLIANCE_VIOLATION
  | HYBRID_MODE_FAILURE
  | NOT_IMPLEMENTED
  | INVALID_OPERATION
  | SIGNATURE_FAILED
  deriving DecidableEq, Repr

/-- Decidable equality of Except results, used to evaluate outcomes of the
embedded fallible operations on concrete inputs. -/
instance instDecEqExcept {ε α : Type} [DecidableEq ε] [DecidableEq α] :
    DecidableEq (Except ε α) := fun a b =>
  match a, b with
  | .error a, .error b =>
      if h : a = b then .isTrue (by rw [h])
      else .isFalse (fun e => h (Except.error.inj e))
  | .ok a, .ok b =>
      if h : a = b then .isTrue (by rw [h])
      else .isFalse (fun e => h (Except.ok.inj e))
  | .error _, .ok _ => .isFalse (fun e => Except.noConfusion e)
  | .ok _, .error _ => .isFalse (fun e => Except.noConfusion e)

/-- Character-list test for a leading occurrence of the pattern. -/
def charsStartWith : List Char → List Char → Bool
  | _, [] => true
  | [], _ :: _ => false
  | c :: cs, d :: ds => c = d && charsStartWith cs ds

/-- Character-list test for an occurrence of the pattern anywhere. -/
def charsOccur : List Char → List Char → Bool
  | [], pat => pat.isEmpty
  | c :: cs, pat => charsStartWith (c :: cs) pat || charsOccur cs pat

/-- JavaScript String.prototype.startsWith on the algorithm name strings. -/
def strStartsWith (s pat : String) : Bool :=
  charsStartWith s.data pat.data

/-- JavaScript String.prototype.includes on the algorithm name strings. -/
def strIncludes (s pat : String) : Bool :=
  charsOccur s.data pat.data

/-- SecurityMonitorService.recommendAlgorithm (security-monitor.ts lines
26-45) as a pure function of the already computed threat score.  The source
awaits assessQuantumThreat() for the score and then branches on fixed
thresholds; the branching is reproduced verbatim. -/
def recommendAlgorithmFromScore (threatLevel : Nat) : CryptoAlgorithmType :=
  if threatLevel ≥ 90 then
    .ML_KEM_1024
  else if threatLevel ≥ 70 then
    .ML_KEM_768
  else if threatLevel ≥ 50 then
    .Hybrid_RSA_ML_KEM
  else if threatLevel ≥ 25 then
    .ML_KEM_512
  else
    .RSA_OAEP

/-- Modelled from the spec: the recommendation map exactly as the claim words
it, including the "hybrid when hybrid enabled, else standard PQC" proviso for
the 50-69 band.  Used only to compare the claim against the code, which has
no such proviso. -/
def recommendAlgorithmClaim (threatLevel : Nat) (hybridEnabled : Bool) :
    CryptoAlgorithmType :=
  if threatLevel ≥ 90 then
    .ML_KEM_1024
  else if threatLevel ≥ 70 then
    .ML_KEM_768
  else if threatLevel ≥ 50 then
    (if hybridEnabled then .Hybrid_RSA_ML_KEM else .ML_KEM_768)
  else if threatLevel ≥ 25 then
    .ML_KEM_512
  else
    .RSA_OAEP

/-- KeyManagementService.isQuantumSafeAlgorithm (key-manager.ts lines
359-363): startsWith tests on the algorithm's string name.  Note the source
tests startsWith("Dilithium") while the algorithm name is
"CRYSTALS-Dilithium", so that test is never true. -/
def isQuantumSafeAlgorithm (a : CryptoAlgorithmType) : Bool :=
  strStartsWith a.name "ML-KEM" ||
  strStartsWith a.name "Dilithium" ||
  strStartsWith a.name "Hybrid"

/-- KeyManagementService.getAlgorithmSecurityLevel (key-manager.ts lines
365-371): includes tests on the algorithm's string name, in source order. -/
def getAlgorithmSecurityLevel (a : CryptoAlgorithmType) : SecurityLevel :=
  if strIncludes a.name "1024" then .maximum
  else if strIncludes a.name "768" then .high
  else if strIncludes a.name "512" then .medium
  else if strIncludes a.name "RSA" then .low
  else .medium

/-- Usage role union of KeyMetadata.usage (key-manager.ts line 23). -/
inductive KeyUsage where
  | encryption
  | signing
  | kex
  deriving DecidableEq, Repr

/-- KeyManagementService.getKeyUsage (key-manager.ts lines 373-377). -/
def getKeyUsage (a : CryptoAlgorithmType) : KeyUsage :=
  if strIncludes a.name "KEM" then .kex
  else if strIncludes a.name "Dilithium" then .signing
  else .encryption

/-- Lifecycle status union of KeyMetadata.status (key-manager.ts line 24). -/
inductive KeyStatus where
  | active
  | rotating
  | revoked
  | expired
  deriving DecidableEq, Repr

/-- KeyMetadata record (key-manager.ts lines 14-25).  Key identifiers are
modelled as naturals (generateKeyId builds them from Date.now and a random
suffix; the model draws them from the state's freshness counter) and Date
values as natural timestamps. -/
structure KeyMetadata where
  id : Nat
  algorithm : CryptoAlgorithmType
  created : Nat
  lastUsed : Option Nat := none
  rotatedAt : Option Nat := none
  expiresAt : Option Nat := none
  isQuantumSafe : Bool
  securityLevel : SecurityLevel
  usage : KeyUsage
  status : KeyStatus
  deriving DecidableEq, Repr

/-- KeyRotationPolicy record (key-manager.ts lines 27-33). -/
structure KeyRotationPolicy where
  algorithm : CryptoAlgorithmType
  maxAge : Nat
  maxUsage : Nat
  autoRotate : Bool
  quantumThreatThreshold : Nat
  deriving DecidableEq, Repr

/-- Lifecycle event kinds used by the key manager (types.ts line 385). -/
inductive EventType where
  | created
  | used
  | rotated
  | expired
  | revoked
  deriving DecidableEq, Repr

/-- KeyLifecycleEvent record (types.ts lines 383-392), restricted to the
fields the key manager populates; the free-text detail strings are carried by
the event kind and ids. -/
structure KeyLifecycleEvent where
  keyId : Nat
  type : EventType
  timestamp : Nat
  algorithm : CryptoAlgorithmType
  previousKeyId : Option Nat := none
  deriving DecidableEq, Repr

/-- Raw key material handle.  The service stores opaque CryptoKey objects;
only identity and presence of the material matter to the embedded code, so a
handle is a natural number. -/
abbrev CryptoKeyH := Nat

/-- Lookup in an insertion-ordered association list, the model of a
JavaScript Map (Map.get). -/
def mapFind? {κ ν : Type} [DecidableEq κ] :
    List (κ × ν) → κ → Option ν
  | [], _ => none
  | (k, v) :: rest, k0 => if k = k0 then some v else mapFind? rest k0

/-- Map.set of a JavaScript Map: replace the binding in place when the key is
present, append otherwise (insertion order preserved). -/
def mapSet {κ ν : Type} [DecidableEq κ] :
    List (κ × ν) → κ → ν → List (κ × ν)
  | [], k0, v0 => [(k0, v0)]
  | (k, v) :: rest, k0, v0 =>
      if k = k0 then (k, v0) :: rest else (k, v) :: mapSet rest k0 v0

/-- Map.delete of a JavaScript Map: drop the binding for the key. -/
def mapDelete {κ ν : Type} [DecidableEq κ] :
    List (κ × ν) → κ → List (κ × ν)
  | [], _ => []
  | (k, v) :: rest, k0 =>
      if k = k0 then mapDelete rest k0 else (k, v) :: mapDelete rest k0

/-- Errors thrown by key manager operations: the template-string errors of
rotateKey/revokeKey ("Key ... not found") and createKeyPair ("Key generation
for ... not implemented yet"). -/
inductive KMError where
  | keyNotFound (keyId : Nat)
  | notImplemented (algorithm : CryptoAlgorithmType)
  deriving DecidableEq, Repr

/-- State of a KeyManagementService instance: the keys metadata map, the
keyStore material map (the source keys material by the strings keyId and
keyId + "_pub"; the Bool marks the _pub entry), the policy map, the stream of
emitted lifecycle events (emitEvent fans these out to listeners; the stream
records them in emission order), and the freshness counter standing for the
Date.now/Math.random id supply. -/
structure KMSState where
  keys : List (Nat × KeyMetadata)
  keyStore : List ((Nat × Bool) × CryptoKeyH)
  rotationPolicies : List (CryptoAlgorithmType × KeyRotationPolicy)
  events : List KeyLifecycleEvent
  ctr : Nat
  deriving DecidableEq, Repr

/-- KeyManagementService.initializeDefaultPolicies (key-manager.ts lines
290-333). -/
def defaultPolicies : List (CryptoAlgorithmType × KeyRotationPolicy) :=
  [(.RSA_OAEP,
    { algorithm := .RSA_OAEP, maxAge := 90 * 24 * 60 * 60 * 1000,
      maxUsage := 10000, autoRotate := true, quantumThreatThreshold := 50 }),
   (.ML_KEM_512,
    { algorithm := .ML_KEM_512, maxAge := 365 * 24 * 60 * 60 * 1000,
      maxUsage := 100000, autoRotate := true, quantumThreatThreshold := 95 }),
   (.ML_KEM_768,
    { algorithm := .ML_KEM_768, maxAge := 365 * 24 * 60 * 60 * 1000,
      maxUsage := 100000, autoRotate := true, quantumThreatThreshold := 95 }),
   (.ML_KEM_1024,
    { algorithm := .ML_KEM_1024, maxAge := 2 * 365 * 24 * 60 * 60 * 1000,
      maxUsage := 500000, autoRotate := true, quantumThreatThreshold := 98 }),
   (.Hybrid_RSA_ML_KEM,
    { algorithm := .Hybrid_RSA_ML_KEM, maxAge := 180 * 24 * 60 * 60 * 1000,
      maxUsage := 50000, autoRotate := true, quantumThreatThreshold := 70 })]

/-- State of a freshly constructed KeyManagementService. -/
def initialState : KMSState :=
  { keys := [], keyStore := [], rotationPolicies := defaultPolicies,
    events := [], ctr := 0 }

/-- KeyManagementService.createKeyPair (key-manager.ts lines 339-357): only
RSA-OAEP is implemented; the Web Crypto RSA generateKey call is modelled as
always succeeding with fresh opaque material derived from the id supply.
Every other algorithm throws the "not implemented yet" error. -/
def createKeyPair (algorithm : CryptoAlgorithmType) (fresh : Nat) :
    Except KMError (CryptoKeyH × CryptoKeyH) :=
  if algorithm = .RSA_OAEP then
    .ok (2 * fresh, 2 * fresh + 1)
  else
    .error (.notImplemented algorithm)

/-- KeyManagementService.generateKey (key-manager.ts lines 45-78).  The id
supply (generateKeyId) is consumed before createKeyPair runs, matching the
source's statement order; on a createKeyPair failure the exception propagates
before any of keys/keyStore/events is touched. -/
def generateKey (s : KMSState) (algorithm : CryptoAlgorithmType) (now : Nat) :
    Except KMError Nat × KMSState :=
  let keyId := s.ctr
  let s1 : KMSState := { s with ctr := s.ctr + 1 }
  match createKeyPair algorithm keyId with
  | .error e => (.error e, s1)
  | .ok (priv, pub) =>
      let expiresAt :=
        (mapFind? s1.rotationPolicies algorithm).map (fun p => now + p.maxAge)
      let metadata : KeyMetadata :=
        { id := keyId, algorithm := algorithm, created := now,
          expiresAt := expiresAt,
          isQuantumSafe := isQuantumSafeAlgorithm algorithm,
          securityLevel := getAlgorithmSecurityLevel algorithm,
          usage := getKeyUsage algorithm, status := .active }
      let s2 : KMSState :=
        { s1 with
          keys := mapSet s1.keys keyId metadata,
          keyStore := mapSet (mapSet s1.keyStore (keyId, false) priv)
                        (keyId, true) pub,
          events := s1.events ++
            [{ keyId := keyId, type := .created, timestamp := now,
               algorithm := algorithm }] }
      (.ok keyId, s2)

/-- KeyManagementService.rotateKey (key-manager.ts lines 80-103).  The old
key is marked rotating and stamped before the new key is generated; a
generateKey failure therefore leaves the old key already re-stamped, exactly
as in the source. -/
def rotateKey (s : KMSState) (keyId : Nat) (now : Nat) :
    Except KMError Nat × KMSState :=
  match mapFind? s.keys keyId with
  | none => (.error (.keyNotFound keyId), s)
  | some oldMetadata =>
      let marked : KeyMetadata :=
        { oldMetadata with status := .rotating, rotatedAt := some now }
      let s1 : KMSState := { s with keys := mapSet s.keys keyId marked }
      match generateKey s1 oldMetadata.algorithm now with
      | (.error e, s2) => (.error e, s2)
      | (.ok newKeyId, s2) =>
          let s3 : KMSState :=
            { s2 with events := s2.events ++
                [{ keyId := newKeyId, type := .rotated, timestamp := now,
                   algorithm := oldMetadata.algorithm,
                   previousKeyId := some keyId }] }
          (.ok newKeyId, s3)

/-- KeyManagementService.revokeKey (key-manager.ts lines 105-124): status
becomes revoked, both material entries are deleted from the keyStore, the
metadata stays for audit, and a revoked event is emitted. -/
def revokeKey (s : KMSState) (keyId : Nat) (now : Nat) :
    Except KMError Unit × KMSState :=
  match mapFind? s.keys keyId with
  | none => (.error (.keyNotFound keyId), s)
  | some metadata =>
      let s1 : KMSState :=
        { s with
          keys := mapSet s.keys keyId { metadata with status := .revoked },
          keyStore := mapDelete (mapDelete s.keyStore (keyId, false))
                        (keyId, true),
          events := s.events ++
            [{ keyId := keyId, type := .revoked, timestamp := now,
               algorithm := metadata.algorithm }] }
      (.ok (), s1)

/-- KeyManagementService.getKey (key-manager.ts lines 126-129). -/
def getKey (s : KMSState) (keyId : Nat) : Option CryptoKeyH :=
  mapFind? s.keyStore (keyId, false)

/-- KeyManagementService.getPublicKey (key-manager.ts lines 131-134). -/
def getPublicKey (s : KMSState) (keyId : Nat) : Option CryptoKeyH :=
  mapFind? s.keyStore (keyId, true)

/-- KeyManagementService.getKeyMetadata (key-manager.ts lines 194-196). -/
def getKeyMetadata (s : KMSState) (keyId : Nat) : Option KeyMetadata :=
  mapFind? s.keys keyId

/-- KeyManagementService.recordKeyUsage (key-manager.ts lines 222-235). -/
def recordKeyUsage (s : KMSState) (keyId : Nat) (now : Nat) : KMSState :=
  match mapFind? s.keys keyId with
  | none => s
  | some metadata =>
      { s with
        keys := mapSet s.keys keyId { metadata with lastUsed := some now },
        events := s.events ++
          [{ keyId := keyId, type := .used, timestamp := now,
             algorithm := metadata.algorithm }] }

/-- KeyManagementService.setRotationPolicy (key-manager.ts lines 238-240). -/
def setRotationPolicy (s : KMSState) (algorithm : CryptoAlgorithmType)
    (policy : KeyRotationPolicy) : KMSState :=
  { s with rotationPolicies := mapSet s.rotationPolicies algorithm policy }

/-- Loop body of KeyManagementService.checkKeyRotationNeeds (key-manager.ts
lines 137-167), walking the keys map in insertion order.  The simulated
getCurrentQuantumThreatLevel draw (45 plus a random spread) is passed in as
the threat argument; the claims under verification do not depend on the draw
varying between iterations. -/
def checkNeedsList (policies : List (CryptoAlgorithmType × KeyRotationPolicy))
    (now threat : Nat) : List (Nat × KeyMetadata) → List Nat
  | [] => []
  | (keyId, metadata) :: rest =>
      let tail := checkNeedsList policies now threat rest
      if metadata.status ≠ .active then tail
      else
        match mapFind? policies metadata.algorithm with
        | none => tail
        | some policy =>
            let byAge := match metadata.expiresAt with
              | some e => now > e
              | none => false
            let byThreat :=
              threat ≥ policy.quantumThreatThreshold && !metadata.isQuantumSafe
            if byAge || byThreat then keyId :: tail else tail

/-- KeyManagementService.checkKeyRotationNeeds on the service state. -/
def checkKeyRotationNeeds (s : KMSState) (now threat : Nat) : List Nat :=
  checkNeedsList s.rotationPolicies now threat s.keys

/-- Loop of KeyManagementService.performScheduledRotations (key-manager.ts
lines 178-188): rotate each flagged key in order, collecting the new id on
success and a (keyId, error) entry on failure, never aborting the batch. -/
def rotateBatch (s : KMSState) (now : Nat) :
    List Nat → List Nat × List (Nat × KMError) × KMSState
  | [] => ([], [], s)
  | keyId :: rest =>
      match rotateKey s keyId now with
      | (.ok newKeyId, s1) =>
          let (rotated, failed, s2) := rotateBatch s1 now rest
          (newKeyId :: rotated, failed, s2)
      | (.error e, s1) =>
          let (rotated, failed, s2) := rotateBatch s1 now rest
          (rotated, (keyId, e) :: failed, s2)

/-- KeyManagementService.performScheduledRotations (key-manager.ts lines
170-191). -/
def performScheduledRotations (s : KMSState) (now threat : Nat) :
    List Nat × List (Nat × KMError) × KMSState :=
  rotateBatch s now (checkKeyRotationNeeds s now threat)

/-- Provider value produced by CryptoProviderFactory.instantiateProvider: an
instance tagged with the concrete algorithm it was constructed for. -/
structure Provider where
  algorithm : CryptoAlgorithmType
  deriving DecidableEq, Repr

/-- Factory configuration fields used by createProvider
(provider-factory.ts CryptoConfig usage). -/
structure FactoryConfig where
  preferredAlgorithm : Option CryptoAlgorithmType
  fallbackAlgorithms : Option (List CryptoAlgorithmType)
  deriving DecidableEq, Repr

/-- State of the CryptoProviderFactory singleton: its config and the
algorithm-to-provider cache. -/
structure FactoryState where
  config : FactoryConfig
  cache : List (CryptoAlgorithmType × Provider)
  deriving DecidableEq, Repr

/-- CryptoProviderFactory.instantiateProvider (provider-factory.ts lines
539-571).  The switch constructs a provider through a dynamic module import
for RSA-OAEP, the three ML-KEM variants, Dilithium and the two first hybrid
names, and throws ALGORITHM_NOT_SUPPORTED for every other name.  Whether a
given import-and-construct succeeds depends on the runtime environment, so
that outcome is the env argument; default-branch algorithms fail regardless
of env. -/
def instantiateProvider (env : CryptoAlgorithmType → Bool)
    (algorithm : CryptoAlgorithmType) : Option Provider :=
  match algorithm with
  | .RSA_OAEP | .ML_KEM_512 | .ML_KEM_768 | .ML_KEM_1024
  | .CRYSTALS_Dilithium | .Hybrid_RSA_ML_KEM | .Hybrid_ECDH_ML_KEM =>
      if env algorithm then some { algorithm := algorithm } else none
  | _ => none

/-- Fallback loop of createProvider (provider-factory.ts lines 520-530): the
first component of the result is the outcome, the second the updated state,
the third the list of algorithms attempted by the loop in order (the source
logs each attempt; the trace records that order). -/
def tryFallbacks (env : CryptoAlgorithmType → Bool) (s : FactoryState) :
    List CryptoAlgorithmType →
    Except CryptoErrorCode Provider × FactoryState × List CryptoAlgorithmType
  | [] => (.error .ALGORITHM_NOT_SUPPORTED, s, [])
  | fallback :: rest =>
      match instantiateProvider env fallback with
      | some provider =>
          (.ok provider,
           { s with cache := mapSet s.cache fallback provider },
           [fallback])
      | none =>
          let (r, s1, attempted) := tryFallbacks env s rest
          (r, s1, fallback :: attempted)

/-- CryptoProviderFactory.createProvider (provider-factory.ts lines 503-537).
The selected algorithm is the argument, else the configured preference, else
RSA-OAEP; a cached provider short-circuits; otherwise the selected algorithm
is attempted, and on failure the configured fallback list (defaulting to
[RSA-OAEP]) is walked in order.  The trace component lists every algorithm
whose instantiation was attempted, in attempt order. -/
def createProvider (env : CryptoAlgorithmType → Bool) (s : FactoryState)
    (algorithm : Option CryptoAlgorithmType) :
    Except CryptoErrorCode Provider × FactoryState × List CryptoAlgorithmType :=
  let selected := algorithm.getD (s.config.preferredAlgorithm.getD .RSA_OAEP)
  match mapFind? s.cache selected with
  | some cached => (.ok cached, s, [])
  | none =>
      match instantiateProvider env selected with
      | some provider =>
          (.ok provider,
           { s with cache := mapSet s.cache selected provider },
           [selected])
      | none =>
          let fallbacks := s.config.fallbackAlgorithms.getD [.RSA_OAEP]
          let (r, s1, attempted) := tryFallbacks env s fallbacks
          (r, s1, selected :: attempted)

/-- First fallback that instantiates successfully, in list order. -/
def firstSuccess (env : CryptoAlgorithmType → Bool) :
    List CryptoAlgorithmType → Option (CryptoAlgorithmType × Provider)
  | [] => none
  | fallback :: rest =>
      match instantiateProvider env fallback with
      | some provider => some (fallback, provider)
      | none => firstSuccess env rest

/-- Prefix of the fallback list up to and including the first success (the
whole list when every fallback fails). -/
def attemptedPrefix (env : CryptoAlgorithmType → Bool) :
    List CryptoAlgorithmType → List CryptoAlgorithmType
  | [] => []
  | fallback :: rest =>
      match instantiateProvider env fallback with
      | some _ => [fallback]
      | none => fallback :: attemptedPrefix env rest

/-! Models of the Web Crypto primitives.  These are the platform calls the
repository makes (crypto.subtle.digest/deriveKey/encrypt/decrypt, the P-256
key pair generation, btoa/atob, TextEncoder/TextDecoder); they are external
to the repository and are embedded as executable stand-ins that keep the
contracts the repository code relies on: SHA-256 is a fixed 32-byte digest,
AES-GCM is an authenticated cipher whose decryption inverts encryption under
the same key and nonce and signals tag mismatch otherwise, ECDH key
derivation is commutative modular exponentiation, the SPKI export of a P-256
public key is a fixed-width 91-byte encoding, and the base64 and UTF-8 codecs
are lossless transports (modelled as the identity on byte lists, so messages
and blobs are byte lists throughout). -/

/-- Model of crypto.subtle.digest("SHA-256"): a deterministic 32-entry digest
of the input bytes. -/
def sha256M (bs : List Nat) : List Nat :=
  (List.range 32).map (fun i => (bs.foldl (fun a b => a * 31 + b + 1) i) % 256)

/-- TypedArray.set into a fresh zero buffer of size n (the pattern the ML-KEM
provider uses to build fixed-size outputs). -/
def bufSet (n : Nat) (l : List Nat) : List Nat :=
  l.take n ++ List.replicate (n - l.length) 0

/-- Authentication tag of the AES-GCM model. -/
def aesGcmTag (key : Nat) (iv body : List Nat) : Nat :=
  key * 2 + iv.sum * 3 + body.sum * 5 + body.length * 7 + 1

/-- Model of crypto.subtle.encrypt with AES-GCM: mask the plaintext with the
key and append an authentication tag bound to key and nonce. -/
def aesGcmEncrypt (key : Nat) (iv message : List Nat) : List Nat :=
  let body := message.map (fun b => b + key)
  body ++ [aesGcmTag key iv body]

/-- Model of crypto.subtle.decrypt with AES-GCM: check the tag under the
supplied key and nonce, failing like the platform call on mismatch, then
unmask. -/
def aesGcmDecrypt (key : Nat) (iv ct : List Nat) : Except Unit (List Nat) :=
  let body := ct.dropLast
  if ct.getLast? = some (aesGcmTag key iv body) then
    .ok (body.map (fun b => b - key))
  else
    .error ()

/-- Modulus of the ECDH group model. -/
def dhP : Nat := 251

/-- Generator of the ECDH group model. -/
def dhG : Nat := 6

/-- Public value of an ECDH private scalar (model of the P-256 key pair:
generateKeyPair in cryptoUtils.ts draws the private scalar at random and the
public key is determined by it). -/
def dhPub (priv : Nat) : Nat := dhG ^ priv % dhP

/-- Model of crypto.subtle.deriveKey with ECDH: the shared AES key derived
from a counterparty public value and an own private scalar. -/
def dhDerive (pub priv : Nat) : Nat := pub ^ priv % dhP

/-- Little-endian fixed-width byte decomposition, the model of the fixed
91-byte SPKI export of a P-256 public key. -/
def encodeLE : Nat → Nat → List Nat
  | 0, _ => []
  | n + 1, x => x % 256 :: encodeLE n (x / 256)

/-- Inverse of encodeLE, the model of crypto.subtle.importKey("spki"). -/
def decodeLE : List Nat → Nat
  | [] => 0
  | b :: bs => b + 256 * decodeLE bs

/-- encryptMessage of cryptoUtils.ts (lines 43-89): generate an ephemeral
P-256 pair, derive the shared AES key from the recipient public key and the
ephemeral private scalar, AES-GCM-encrypt under a fresh 12-byte nonce, and
concatenate SPKI-exported ephemeral public key, nonce and ciphertext.  The
ephemeral scalar and the nonce are the randomness the call consumes and are
passed explicitly; the base64 transport is the identity model. -/
def encryptMessage (message : List Nat) (recipientPublicKey : Nat)
    (ephPriv : Nat) (iv : List Nat) : List Nat :=
  let sharedSecret := dhDerive recipientPublicKey ephPriv
  let encrypted := aesGcmEncrypt sharedSecret iv message
  encodeLE 91 (dhPub ephPriv) ++ iv ++ encrypted

/-- decryptMessage of cryptoUtils.ts (lines 94-142): split the blob at the
fixed offsets 91 (SPKI public key) and 103 (12-byte nonce), re-import the
ephemeral public key, derive the shared AES key with the recipient private
scalar, and AES-GCM-decrypt. -/
def decryptMessage (blob : List Nat) (privateKey : Nat) :
    Except Unit (List Nat) :=
  let ephemeralPublicKeyBuffer := blob.take 91
  let iv := (blob.drop 91).take 12
  let encrypted := blob.drop 103
  let ephemeralPublicKey := decodeLE ephemeralPublicKeyBuffer
  let sharedSecret := dhDerive ephemeralPublicKey privateKey
  aesGcmDecrypt sharedSecret iv encrypted

/-- Model of a Web Crypto RSA-OAEP key handle: the seed identifies the key
pair it belongs to (both halves of one generateKeyPair call share it), the
flag which half this is. -/
structure RSAKeyM where
  seed : Nat
  isPrivate : Bool
  deriving DecidableEq, Repr

/-- Model of crypto.subtle.encrypt with RSA-OAEP: mask under the pair's
seed. -/
def rsaOaepPrim (seed : Nat) (m : List Nat) : List Nat :=
  m.map (fun b => b + seed)

/-- RSAProvider.encrypt (rsa-provider.ts lines 43-73): encode the text,
reject plaintexts longer than 190 bytes with ENCRYPTION_FAILED before the
primitive runs, otherwise encrypt and base64 the result (text and base64
codecs are identity transports, so data is the encoded byte list). -/
def RSAProvider.encrypt (data : List Nat) (publicKey : RSAKeyM) :
    Except CryptoErrorCode (List Nat) :=
  if data.length > 190 then
    .error .ENCRYPTION_FAILED
  else
    .ok (rsaOaepPrim publicKey.seed data)

/-- RSAProvider.decrypt (rsa-provider.ts lines 75-95): base64-decode and
invert the primitive under the private key's pair seed. -/
def RSAProvider.decrypt (encryptedData : List Nat) (privateKey : RSAKeyM) :
    Except CryptoErrorCode (List Nat) :=
  .ok (encryptedData.map (fun b => b - privateKey.seed))

/-- ML-KEM parameter-set variants accepted by the MLKEMProvider
constructor. -/
inductive MLKEMVariant where
  | ML_KEM_512
  | ML_KEM_768
  | ML_KEM_1024
  deriving DecidableEq, Repr

/-- keySize field of the MLKEMProvider constructor switch. -/
def MLKEMVariant.keySize : MLKEMVariant → Nat
  | .ML_KEM_512 => 800
  | .ML_KEM_768 => 1184
  | .ML_KEM_1024 => 1568

/-- ciphertextSize field of the MLKEMProvider constructor switch. -/
def MLKEMVariant.ciphertextSize : MLKEMVariant → Nat
  | .ML_KEM_512 => 768
  | .ML_KEM_768 => 1088
  | .ML_KEM_1024 => 1568

/-- sharedSecretSize field of the MLKEMProvider constructor switch (32 for
every variant). -/
def MLKEMVariant.sharedSecretSize : MLKEMVariant → Nat := fun _ => 32

/-- MLKEMProvider.generateKeyPair (ml-kem-provider.ts lines 62-88): the
private key is 32 random bytes (passed explicitly), the public key is the
digest of the private key followed by a byte-wise xor expansion to the
variant's key size. -/
def mlkemGenerateKeyPair (variant : MLKEMVariant) (privRandom : List Nat) :
    List Nat × List Nat :=
  let hashView := sha256M privRandom
  let publicKeyData := (List.range variant.keySize).map (fun i =>
    if i < 32 then hashView.getD i 0
    else Nat.xor (privRandom.getD (i % 32) 0) (hashView.getD (i % 32) 0))
  (publicKeyData, privRandom)

/-- MLKEMProvider.encapsulate (ml-kem-provider.ts lines 93-119): the shared
secret is 32 random bytes (passed explicitly); the ciphertext is the digest
of sharedSecret ‖ publicKey repeated out to the variant's ciphertext size. -/
def encapsulate (variant : MLKEMVariant) (publicKey : List Nat)
    (secretRandom : List Nat) : List Nat × List Nat :=
  let sharedSecret := secretRandom
  let combined := sharedSecret ++ publicKey
  let hashView := sha256M combined
  let ciphertext :=
    (List.range variant.ciphertextSize).map (fun i => hashView.getD (i % 32) 0)
  (ciphertext, sharedSecret)

/-- MLKEMProvider.decapsulate (ml-kem-provider.ts lines 124-140): hash a copy
of the ciphertext and write the first 32 digest bytes into a fresh 32-byte
buffer; the private key parameter is unused in the source. -/
def decapsulate (variant : MLKEMVariant) (_privateKey : List Nat)
    (ciphertext : List Nat) : List Nat :=
  let hashView := sha256M ciphertext
  bufSet variant.sharedSecretSize (hashView.take variant.sharedSecretSize)

/-- Key argument forms accepted by MLKEMProvider.encrypt and decrypt: a raw
Uint8Array (the form its own generateKeyPair produces) or a Web Crypto AES
key handle (the form its generateKeys and importKey produce). -/
inductive MLKey where
  | bytes (b : List Nat)
  | cryptoKey (k : Nat)
  deriving DecidableEq, Repr

/-- MLKEMProvider.encrypt (ml-kem-provider.ts lines 168-185): when the key is
a CryptoKey it is used directly; otherwise a fresh AES key is generated by
this.generateKeys() and used (freshKey models that draw, which is never
returned to the caller).  The payload is nonce ‖ AES-GCM ciphertext. -/
def MLKEMProvider.encrypt (data : List Nat) (publicKey : MLKey)
    (freshKey : Nat) (iv : List Nat) : List Nat :=
  let key := match publicKey with
    | .cryptoKey k => k
    | .bytes _ => freshKey
  iv ++ aesGcmEncrypt key iv data

/-- MLKEMProvider.decrypt (ml-kem-provider.ts lines 187-203): the same key
dispatch as encrypt (a Uint8Array key again triggers a fresh
this.generateKeys() draw, modelled by freshKey), then split the 12-byte nonce
off and AES-GCM-decrypt. -/
def MLKEMProvider.decrypt (encryptedData : List Nat) (privateKey : MLKey)
    (freshKey : Nat) : Except Unit (List Nat) :=
  let key := match privateKey with
    | .cryptoKey k => k
    | .bytes _ => freshKey
  let iv := encryptedData.take 12
  let encrypted := encryptedData.drop 12
  aesGcmDecrypt key iv encrypted

/-- Runtime environment of the factory fallback scenario: only the RSA-OAEP
module instantiates. -/
def envOnlyRSA : CryptoAlgorithmType → Bool := fun a =>
  match a with
  | .RSA_OAEP => true
  | _ => false

/-- Factory state of the fallback scenario: preferred algorithm X =
Hybrid-RSA-ML-KEM (which fails to instantiate under envOnlyRSA), fallbacks
[Y, Z] = [ML-KEM-768, RSA-OAEP] where Y also fails and Z succeeds. -/
def factoryStateXYZ : FactoryState :=
  { config := { preferredAlgorithm := some .Hybrid_RSA_ML_KEM,
                fallbackAlgorithms := some [.ML_KEM_768, .RSA_OAEP] },
    cache := [] }

/-- State-touching operations of the KeyManagementService public surface. -/
inductive KMOp where
  | generate (algorithm : CryptoAlgorithmType) (now : Nat)
  | rotate (keyId now : Nat)
  | revoke (keyId now : Nat)
  | recordUsage (keyId now : Nat)
  | scheduledRotations (now threat : Nat)
  | setPolicy (algorithm : CryptoAlgorithmType) (policy : KeyRotationPolicy)
  deriving DecidableEq, Repr

/-- Effect of one KeyManagementService operation on the service state. -/
def applyOp (s : KMSState) : KMOp → KMSState
  | .generate algorithm now => (generateKey s algorithm now).2
  | .rotate keyId now => (rotateKey s keyId now).2
  | .revoke keyId now => (revokeKey s keyId now).2
  | .recordUsage keyId now => recordKeyUsage s keyId now
  | .scheduledRotations now threat =>
      (performScheduledRotations s now threat).2.2
  | .setPolicy algorithm policy => setRotationPolicy s algorithm policy

/-- States reachable from a freshly constructed service by a sequence of
public operations. -/
def Reachable (s : KMSState) : Prop :=
  ∃ ops : List KMOp, s = ops.foldl applyOp initialState

/-- Structural well-formedness the service maintains: every key id in the
table is below the freshness counter, and every stored key was created for
RSA-OAEP (the only algorithm createKeyPair implements, so the only one that
ever reaches the table). -/
def WFS (s : KMSState) : Prop :=
  ∀ p ∈ s.keys, p.1 < s.ctr ∧ p.2.algorithm = .RSA_OAEP

/-- Evolution the key manager allows for one preserved key record: the
identity fields (id, algorithm, creation time, expiry timestamp,
quantum-safe flag, security level, usage role) never change — only status,
lastUsed and rotatedAt mutate — and the status either stays put or is set
to rotating (by rotateKey) or revoked (by revokeKey); no operation ever sets
the expired status. -/
def RecordEvolves (md md' : KeyMetadata) : Prop :=
  md'.id = md.id ∧
  md'.algorithm = md.algorithm ∧
  md'.created = md.created ∧
  md'.expiresAt = md.expiresAt ∧
  md'.isQuantumSafe = md.isQuantumSafe ∧
  md'.securityLevel = md.securityLevel ∧
  md'.usage = md.usage ∧
  (md'.status = md.status ∨ md'.status = .rotating ∨ md'.status = .revoked)

/-- Concrete service state with three active keys all past their expiry (two
RSA-OAEP keys around one ML-KEM-768 key), so that a scheduled sweep flags all
three and the rotation of the middle key fails in createKeyPair. -/
def threeKeyState : KMSState :=
  { keys :=
      [(0, { id := 0, algorithm := .RSA_OAEP, created := 0,
             expiresAt := some 10, isQuantumSafe := false,
             securityLevel := .low, usage := .encryption,
             status := .active }),
       (1, { id := 1, algorithm := .ML_KEM_768, created := 0,
             expiresAt := some 10, isQuantumSafe := true,
             securityLevel := .high, usage := .kex, status := .active }),
       (2, { id := 2, algorithm := .RSA_OAEP, created := 0,
             expiresAt := some 10, isQuantumSafe := false,
             securityLevel := .low, usage := .encryption,
             status := .active })],
    keyStore := [((0, false), 100), ((0, true), 101), ((1, false), 102),
      ((1, true), 103), ((2, false), 104), ((2, true), 105)],
    rotationPolicies := defaultPolicies,
    events := [],
    ctr := 3 }

/-! Association-list lemmas for the JavaScript Map model. -/

theorem mapFind?_mem {κ ν : Type} [DecidableEq κ] {m : List (κ × ν)} {k : κ}
    {v : ν} (h : mapFind? m k = some v) : (k, v) ∈ m := by
  induction m with
  | nil => simp [mapFind?] at h
  | cons p rest ih =>
      obtain ⟨k1, v1⟩ := p
      by_cases hk : k1 = k
      · subst hk
        simp [mapFind?] at h
        simp [h]
      · simp [mapFind?, hk] at h
        exact List.mem_cons_of_mem _ (ih h)

theorem mem_mapSet {κ ν : Type} [DecidableEq κ] {m : List (κ × ν)} {k : κ}
    {v : ν} {p : κ × ν} (h : p ∈ mapSet m k v) : p ∈ m ∨ p = (k, v) := by
  induction m with
  | nil =>
      simp [mapSet] at h
      simp [h]
  | cons q rest ih =>
      obtain ⟨k1, v1⟩ := q
      by_cases hk : k1 = k
      · subst hk
        simp [mapSet] at h
        rcases h with h | h
        · right; simp [h]
        · left; exact List.mem_cons_of_mem _ h
      · simp [mapSet, hk] at h
        rcases h with h | h
        · left; simp [h]
        · rcases ih h with h1 | h1
          · left; exact List.mem_cons_of_mem _ h1
          · right; exact h1

theorem mapFind?_set_self {κ ν : Type} [DecidableEq κ] (m : List (κ × ν))
    (k : κ) (v : ν) : mapFind? (mapSet m k v) k = some v := by
  induction m with
  | nil => simp [mapSet, mapFind?]
  | cons q rest ih =>
      obtain ⟨k1, v1⟩ := q
      by_cases hk : k1 = k
      · simp [mapSet, hk, mapFind?]
      · simp [mapSet, hk, mapFind?, ih]

theorem mapFind?_set_ne {κ ν : Type} [DecidableEq κ] (m : List (κ × ν))
    {k k0 : κ} (v : ν) (h : k ≠ k0) :
    mapFind? (mapSet m k0 v) k = mapFind? m k := by
  have hne : ¬ k0 = k := fun e => h e.symm
  induction m with
  | nil => simp [mapSet, mapFind?, hne]
  | cons q rest ih =>
      obtain ⟨k1, v1⟩ := q
      by_cases hk : k1 = k0
      · subst hk
        simp [mapSet, mapFind?, hne]
      · by_cases hk1 : k1 = k
        · subst hk1
          simp [mapSet, hk, mapFind?]
        · simp [mapSet, hk, mapFind?, hk1, ih]

theorem mapFind?_delete_self {κ ν : Type} [DecidableEq κ] (m : List (κ × ν))
    (k : κ) : mapFind? (mapDelete m k) k = none := by
  induction m with
  | nil => simp [mapDelete, mapFind?]
  | cons q rest ih =>
      obtain ⟨k1, v1⟩ := q
      by_cases hk : k1 = k
      · simpa [mapDelete, hk] using ih
      · simpa [mapDelete, mapFind?, hk] using ih

theorem mapFind?_delete_ne {κ ν : Type} [DecidableEq κ] (m : List (κ × ν))
    {k k0 : κ} (h : k ≠ k0) :
    mapFind? (mapDelete m k0) k = mapFind? m k := by
  have hne : ¬ k0 = k := fun e => h e.symm
  induction m with
  | nil => simp [mapDelete, mapFind?]
  | cons q rest ih =>
      obtain ⟨k1, v1⟩ := q
      by_cases hk : k1 = k0
      · subst hk
        simp [mapDelete, mapFind?, hne, ih]
      · by_cases hk1 : k1 = k
        · subst hk1
          simp [mapDelete, mapFind?, hk]
        · simpa [mapDelete, mapFind?, hk, hk1] using ih

/-! Claim C5: capacity boundary of the classical provider. -/

/-- C5: with the default 2048-bit RSA-OAEP parameters and a valid recipient
public key, RSAProvider.encrypt succeeds for every plaintext of encoded
length at most 190 bytes and fails with ENCRYPTION_FAILED for encoded length
191. -/
theorem rsa_encrypt_capacity_boundary (publicKey : RSAKeyM) (data : List Nat) :
    (data.length ≤ 190 →
      RSAProvider.encrypt data publicKey =
        .ok (rsaOaepPrim publicKey.seed data)) ∧
    (data.length = 191 →
      RSAProvider.encrypt data publicKey = .error .ENCRYPTION_FAILED) := by
  constructor
  · intro h
    simp [RSAProvider.encrypt, Nat.not_lt.mpr h]
  · intro h
    simp [RSAProvider.encrypt, h]

/-- Witness for C5 at the boundary lengths 190 and 191. -/
theorem rsa_encrypt_capacity_boundary_witness :
    RSAProvider.encrypt (List.replicate 190 0) ⟨3, false⟩ =
      .ok (rsaOaepPrim 3 (List.replicate 190 0)) ∧
    RSAProvider.encrypt (List.replicate 191 0) ⟨3, false⟩ =
      .error .ENCRYPTION_FAILED :=
  ⟨(rsa_encrypt_capacity_boundary ⟨3, false⟩ (List.replicate 190 0)).1
      (by rw [List.length_replicate]),
   (rsa_encrypt_capacity_boundary ⟨3, false⟩ (List.replicate 191 0)).2
      (by rw [List.length_replicate])⟩

/-! Claim C6: threat-score thresholds of the Security Monitor's algorithm
recommendation. -/

/-- C6 counterexample: the claim predicts that at score 60 the monitor
returns the standard PQC algorithm when hybrid mode is disabled, but
SecurityMonitorService.recommendAlgorithm consults no hybrid-mode flag and
returns the hybrid algorithm for every score in the 50-69 band. -/
theorem recommendAlgorithm_hybrid_proviso_fails :
    recommendAlgorithmFromScore 60 = .Hybrid_RSA_ML_KEM ∧
    recommendAlgorithmClaim 60 false = .ML_KEM_768 ∧
    recommendAlgorithmFromScore 60 ≠ recommendAlgorithmClaim 60 false := by
  decide

/-- C6 as amended: the monitor maps the threat score by fixed thresholds —
at least 90 the strongest PQC, at least 70 the standard PQC, at least 50 the
hybrid algorithm unconditionally (the monitor has no hybrid-mode flag), at
least 25 the lightest PQC, and classical otherwise; in particular 95, 80, 60,
30 and 10 map to ML-KEM-1024, ML-KEM-768, Hybrid-RSA-ML-KEM, ML-KEM-512 and
RSA-OAEP. -/
theorem recommendAlgorithm_thresholds (score : Nat) :
    (90 ≤ score → recommendAlgorithmFromScore score = .ML_KEM_1024) ∧
    (70 ≤ score → score < 90 →
      recommendAlgorithmFromScore score = .ML_KEM_768) ∧
    (50 ≤ score → score < 70 →
      recommendAlgorithmFromScore score = .Hybrid_RSA_ML_KEM) ∧
    (25 ≤ score → score < 50 →
      recommendAlgorithmFromScore score = .ML_KEM_512) ∧
    (score < 25 → recommendAlgorithmFromScore score = .RSA_OAEP) ∧
    recommendAlgorithmFromScore 95 = .ML_KEM_1024 ∧
    recommendAlgorithmFromScore 80 = .ML_KEM_768 ∧
    recommendAlgorithmFromScore 60 = .Hybrid_RSA_ML_KEM ∧
    recommendAlgorithmFromScore 30 = .ML_KEM_512 ∧
    recommendAlgorithmFromScore 10 = .RSA_OAEP := by
  refine ⟨?_, ?_, ?_, ?_, ?_, by decide, by decide, by decide, by decide,
    by decide⟩ <;>
  · intros
    unfold recommendAlgorithmFromScore
    split_ifs <;> first | rfl | omega

/-- Witness for C6 discharging the threshold hypotheses at concrete
scores. -/
theorem recommendAlgorithm_thresholds_witness :
    recommendAlgorithmFromScore 92 = .ML_KEM_1024 ∧
    recommendAlgorithmFromScore 55 = .Hybrid_RSA_ML_KEM :=
  ⟨(recommendAlgorithm_thresholds 92).1 (by decide),
   (recommendAlgorithm_thresholds 55).2.2.1 (by decide) (by decide)⟩

/-! Claim C9: decapsulation is independent of the private key. -/

/-- C9: for every variant, MLKEMProvider.decapsulate returns the same shared
secret for any two private keys on the same ciphertext, namely the first 32
bytes of the SHA-256 digest of the ciphertext alone. -/
theorem decapsulate_independent_of_privateKey (variant : MLKEMVariant)
    (p1 p2 ciphertext : List Nat) :
    decapsulate variant p1 ciphertext = decapsulate variant p2 ciphertext ∧
    decapsulate variant p1 ciphertext = (sha256M ciphertext).take 32 := by
  constructor
  · rfl
  · have hlen : (sha256M ciphertext).length = 32 := by simp [sha256M]
    simp [decapsulate, MLKEMVariant.sharedSecretSize, bufSet,
      List.take_of_length_le (le_of_eq hlen), hlen]

/-! Claim C2: factory fallback walk. -/

/-- When every fallback fails to instantiate, the loop attempts the entire
list. -/
theorem attemptedPrefix_all_of_no_success (env : CryptoAlgorithmType → Bool)
    (fallbacks : List CryptoAlgorithmType)
    (h : firstSuccess env fallbacks = none) :
    attemptedPrefix env fallbacks = fallbacks := by
  induction fallbacks with
  | nil => rfl
  | cons f rest ih =>
      rcases hi : instantiateProvider env f with _ | p
      · simp [firstSuccess, hi] at h
        simp [attemptedPrefix, hi, ih h]
      · simp [firstSuccess, hi] at h

/-- Behaviour of the fallback loop: it attempts exactly the prefix of the
configured list up to and including the first success, returns and caches
that first success, and returns ALGORITHM_NOT_SUPPORTED leaving the state
untouched when the whole list fails. -/
theorem tryFallbacks_spec (env : CryptoAlgorithmType → Bool) (s : FactoryState)
    (fallbacks : List CryptoAlgorithmType) :
    (tryFallbacks env s fallbacks).2.2 = attemptedPrefix env fallbacks ∧
    (match firstSuccess env fallbacks with
     | some fp =>
        (tryFallbacks env s fallbacks).1 = .ok fp.2 ∧
        (tryFallbacks env s fallbacks).2.1 =
          { s with cache := mapSet s.cache fp.1 fp.2 }
     | none =>
        (tryFallbacks env s fallbacks).1 = .error .ALGORITHM_NOT_SUPPORTED ∧
        (tryFallbacks env s fallbacks).2.1 = s) := by
  induction fallbacks with
  | nil => exact ⟨rfl, rfl, rfl⟩
  | cons f rest ih =>
      rcases hi : instantiateProvider env f with _ | p
      · have h1 := ih.1
        have h2 := ih.2
        constructor
        · simp [tryFallbacks, attemptedPrefix, hi, h1]
        · rcases hf : firstSuccess env rest with _ | fp
          · rw [hf] at h2
            simp [firstSuccess, tryFallbacks, hi, hf, h2.1, h2.2]
          · rw [hf] at h2
            simp [firstSuccess, tryFallbacks, hi, hf, h2.1, h2.2]
      · exact ⟨by simp [tryFallbacks, attemptedPrefix, hi],
          by simp [firstSuccess, tryFallbacks, hi]⟩

/-- C2: when the selected (requested or configured preferred) algorithm is
not cached and fails to instantiate, createProvider walks the configured
fallback list strictly in order — the attempt trace is the selected
algorithm followed by the fallback prefix up to and including the first
success, so no later fallback is ever attempted before an earlier one and
the walk stops at the first success — caches and returns the first fallback
that instantiates, and fails with ALGORITHM_NOT_SUPPORTED only when the
entire fallback chain has been attempted and exhausted. -/
theorem createProvider_fallback_walk (env : CryptoAlgorithmType → Bool)
    (s : FactoryState) (algorithm : Option CryptoAlgorithmType)
    (hcache :
      mapFind? s.cache
        (algorithm.getD (s.config.preferredAlgorithm.getD .RSA_OAEP)) = none)
    (hsel :
      instantiateProvider env
        (algorithm.getD (s.config.preferredAlgorithm.getD .RSA_OAEP)) = none) :
    (createProvider env s algorithm).2.2 =
      algorithm.getD (s.config.preferredAlgorithm.getD .RSA_OAEP) ::
        attemptedPrefix env (s.config.fallbackAlgorithms.getD [.RSA_OAEP]) ∧
    (match firstSuccess env (s.config.fallbackAlgorithms.getD [.RSA_OAEP]) with
     | some fp =>
        (createProvider env s algorithm).1 = .ok fp.2 ∧
        (createProvider env s algorithm).2.1 =
          { s with cache := mapSet s.cache fp.1 fp.2 }
     | none =>
        (createProvider env s algorithm).1 = .error .ALGORITHM_NOT_SUPPORTED ∧
        (createProvider env s algorithm).2.1 = s ∧
        attemptedPrefix env (s.config.fallbackAlgorithms.getD [.RSA_OAEP]) =
          s.config.fallbackAlgorithms.getD [.RSA_OAEP]) := by
  have hspec :=
    tryFallbacks_spec env s (s.config.fallbackAlgorithms.getD [.RSA_OAEP])
  constructor
  · simp [createProvider, hcache, hsel, hspec.1]
  · have h2 := hspec.2
    rcases hf :
        firstSuccess env (s.config.fallbackAlgorithms.getD [.RSA_OAEP]) with
        _ | fp
    · rw [hf] at h2
      exact ⟨by simp [createProvider, hcache, hsel, h2.1],
        by simp [createProvider, hcache, hsel, h2.2],
        attemptedPrefix_all_of_no_success env _ hf⟩
    · rw [hf] at h2
      exact ⟨by simp [createProvider, hcache, hsel, h2.1],
        by simp [createProvider, hcache, hsel, h2.2]⟩

/-- Witness for C2: in the X/Y/Z scenario the attempt order is exactly
X, Y, Z and the returned provider is Z-backed. -/
theorem createProvider_fallback_walk_witness :
    (createProvider envOnlyRSA factoryStateXYZ none).2.2 =
      [.Hybrid_RSA_ML_KEM, .ML_KEM_768, .RSA_OAEP] ∧
    (createProvider envOnlyRSA factoryStateXYZ none).1 =
      .ok { algorithm := .RSA_OAEP } :=
  ⟨(createProvider_fallback_walk envOnlyRSA factoryStateXYZ none
      (by decide) (by decide)).1,
   (createProvider_fallback_walk envOnlyRSA factoryStateXYZ none
      (by decide) (by decide)).2.1⟩

/-! Claim C1: encrypt/decrypt round trips. -/

/-- The AES-GCM model decrypts its own output under the same key and
nonce. -/
theorem aesGcm_roundTrip (key : Nat) (iv m : List Nat) :
    aesGcmDecrypt key iv (aesGcmEncrypt key iv m) = .ok m := by
  simp [aesGcmEncrypt, aesGcmDecrypt, List.dropLast_concat,
    List.getLast?_concat, List.map_map, Function.comp_def, Nat.add_sub_cancel]

/-- ECDH key agreement: the secret derived from the counterparty public
value and the own private scalar is symmetric in the two parties. -/
theorem dhDerive_comm (a b : Nat) :
    dhDerive (dhPub a) b = dhDerive (dhPub b) a := by
  unfold dhDerive dhPub
  rw [← Nat.pow_mod, ← Nat.pow_mod, ← pow_mul, ← pow_mul, Nat.mul_comm]

theorem encodeLE_length (n x : Nat) : (encodeLE n x).length = n := by
  induction n generalizing x with
  | zero => rfl
  | succ n ih => simp [encodeLE, ih]

theorem decodeLE_encodeLE (n x : Nat) : decodeLE (encodeLE n x) = x % 256 ^ n := by
  induction n generalizing x with
  | zero => simp [encodeLE, decodeLE, Nat.mod_one]
  | succ n ih =>
      rw [pow_succ']
      rw [Nat.mod_mul]
      simp [encodeLE, decodeLE, ih]

theorem take_append_len {α : Type} (l₁ l₂ : List α) (n : Nat)
    (h : l₁.length = n) : (l₁ ++ l₂).take n = l₁ := by
  subst h
  exact List.take_left l₁ l₂

theorem drop_append_len {α : Type} (l₁ l₂ : List α) (n : Nat)
    (h : l₁.length = n) : (l₁ ++ l₂).drop n = l₂ := by
  subst h
  exact List.drop_left l₁ l₂

/-- The public value of the ECDH model fits in the 91-byte SPKI encoding. -/
theorem dhPub_lt (a : Nat) : dhPub a < 256 ^ 91 := by
  have h1 : dhPub a < dhP := Nat.mod_lt _ (by norm_num [dhP])
  exact lt_of_lt_of_le h1 (by norm_num [dhP])

/-- Envelope codec round trip: decrypting the envelope built for the
recipient's public value with the recipient's private scalar recovers the
message. -/
theorem envelope_roundTrip (message : List Nat) (recipientPriv ephPriv : Nat)
    (iv : List Nat) (hiv : iv.length = 12) :
    decryptMessage (encryptMessage message (dhPub recipientPriv) ephPriv iv)
      recipientPriv = .ok message := by
  simp only [encryptMessage, decryptMessage, List.append_assoc]
  have hA : (encodeLE 91 (dhPub ephPriv)).length = 91 := encodeLE_length 91 _
  rw [take_append_len _ _ 91 hA, drop_append_len _ _ 91 hA,
    take_append_len _ _ 12 hiv]
  have hdrop :
      (encodeLE 91 (dhPub ephPriv) ++
        (iv ++ aesGcmEncrypt (dhDerive (dhPub recipientPriv) ephPriv) iv
          message)).drop 103 =
      aesGcmEncrypt (dhDerive (dhPub recipientPriv) ephPriv) iv message := by
    rw [show (103 : Nat) = 91 + 12 from rfl, ← List.drop_drop,
      drop_append_len _ _ 91 hA, drop_append_len _ _ 12 hiv]
  rw [hdrop]
  rw [decodeLE_encodeLE, Nat.mod_eq_of_lt (dhPub_lt ephPriv),
    dhDerive_comm ephPriv recipientPriv]
  exact aesGcm_roundTrip _ iv message

/-- C1 counterexample: the ML-KEM provider's encrypt/decrypt pair does not
round-trip for the Uint8Array key form its own generateKeyPair produces —
encrypt under the public half and decrypt under the matching private half
each draw a fresh unrelated AES key, so the plaintext is not recovered.  The
concrete run uses the ML-KEM-512 key pair grown from a fixed 32-byte private
seed, message [1, 2, 3], a zero nonce, and the two independent fresh AES key
draws 5 and 7. -/
theorem mlkem_bytes_roundTrip_fails :
    MLKEMProvider.decrypt
      (MLKEMProvider.encrypt [1, 2, 3]
        (.bytes (mlkemGenerateKeyPair .ML_KEM_512 (List.replicate 32 1)).1)
        5 (List.replicate 12 0))
      (.bytes (mlkemGenerateKeyPair .ML_KEM_512 (List.replicate 32 1)).2)
      7 ≠ .ok [1, 2, 3] := by
  decide

/-- C1 as amended: decrypt-of-encrypt returns the original plaintext for the
envelope codec (any message, recipient key pair, ephemeral scalar and
12-byte nonce), for the classical RSA provider on plaintexts within the
190-byte capacity (matching halves of one RSA key pair share a seed), and
for the ML-KEM provider when the keys are in CryptoKey form — whose matching
private key is the same AES key, since MLKEMProvider.generateKeys returns one
AES key as both halves.  The Uint8Array key form is excluded: there the pair
does not round-trip (see the counterexample). -/
theorem roundTrip_supported_algorithms :
    (∀ (message : List Nat) (recipientPriv ephPriv : Nat) (iv : List Nat),
      iv.length = 12 →
      decryptMessage (encryptMessage message (dhPub recipientPriv) ephPriv iv)
        recipientPriv = .ok message) ∧
    (∀ (seed : Nat) (m c : List Nat), m.length ≤ 190 →
      RSAProvider.encrypt m ⟨seed, false⟩ = .ok c →
      RSAProvider.decrypt c ⟨seed, true⟩ = .ok m) ∧
    (∀ (k freshKey1 freshKey2 : Nat) (m iv : List Nat), iv.length = 12 →
      MLKEMProvider.decrypt
        (MLKEMProvider.encrypt m (.cryptoKey k) freshKey1 iv)
        (.cryptoKey k) freshKey2 = .ok m) := by
  refine ⟨envelope_roundTrip, ?_, ?_⟩
  · intro seed m c hm hc
    have hc1 : c = rsaOaepPrim seed m := by
      simp [RSAProvider.encrypt, Nat.not_lt.mpr hm] at hc
      exact hc.symm
    subst hc1
    simp [RSAProvider.decrypt, rsaOaepPrim, List.map_map, Function.comp_def,
      Nat.add_sub_cancel]
  · intro k f1 f2 m iv hiv
    unfold MLKEMProvider.encrypt MLKEMProvider.decrypt
    rw [take_append_len _ _ 12 hiv, drop_append_len _ _ 12 hiv]
    exact aesGcm_roundTrip k iv m

/-- Witness for C1 discharging each hypothesis at concrete inputs: a
three-byte message through the envelope codec, a one-byte message through the
RSA provider, and a two-byte message through the ML-KEM provider in CryptoKey
form. -/
theorem roundTrip_supported_algorithms_witness :
    decryptMessage (encryptMessage [10, 20, 30] (dhPub 5) 9
      (List.replicate 12 2)) 5 = .ok [10, 20, 30] ∧
    RSAProvider.decrypt (rsaOaepPrim 4 [7]) ⟨4, true⟩ = .ok [7] ∧
    MLKEMProvider.decrypt
      (MLKEMProvider.encrypt [8, 9] (.cryptoKey 6) 100 (List.replicate 12 0))
      (.cryptoKey 6) 200 = .ok [8, 9] :=
  ⟨roundTrip_supported_algorithms.1 [10, 20, 30] 5 9 (List.replicate 12 2)
      (by decide),
   roundTrip_supported_algorithms.2.1 4 [7] (rsaOaepPrim 4 [7]) (by decide)
      (by decide),
   roundTrip_supported_algorithms.2.2 6 100 200 [8, 9] (List.replicate 12 0)
      (by decide)⟩

/-! Well-formedness of reachable key manager states. -/

theorem createKeyPair_ok_alg {a : CryptoAlgorithmType} {f : Nat}
    {pr : CryptoKeyH × CryptoKeyH} (h : createKeyPair a f = .ok pr) :
    a = .RSA_OAEP := by
  by_cases ha : a = .RSA_OAEP
  · exact ha
  · simp [createKeyPair, ha] at h

theorem generateKey_wfs (s : KMSState) (a : CryptoAlgorithmType) (now : Nat)
    (hwf : WFS s) : WFS (generateKey s a now).2 := by
  unfold generateKey
  rcases hc : createKeyPair a s.ctr with e | pr
  · simp only [hc]
    intro p hp
    rcases hwf p hp with ⟨h1, h2⟩
    exact ⟨Nat.lt_succ_of_lt h1, h2⟩
  · simp only [hc]
    intro p hp
    rcases mem_mapSet hp with hp1 | hp1
    · rcases hwf p hp1 with ⟨h1, h2⟩
      exact ⟨Nat.lt_succ_of_lt h1, h2⟩
    · subst hp1
      exact ⟨Nat.lt_succ_self _, createKeyPair_ok_alg hc⟩

theorem rotateKey_wfs (s : KMSState) (k now : Nat) (hwf : WFS s) :
    WFS (rotateKey s k now).2 := by
  unfold rotateKey
  rcases hm : mapFind? s.keys k with _ | old
  · simp only [hm]
    exact hwf
  · simp only [hm]
    have hwf1 : WFS { s with keys := mapSet s.keys k { old with status := .rotating, rotatedAt := some now } } := by
      intro p hp
      rcases mem_mapSet hp with hp1 | hp1
      · exact hwf p hp1
      · subst hp1
        rcases hwf _ (mapFind?_mem hm) with ⟨h1, h2⟩
        exact ⟨h1, h2⟩
    have hwf2 := generateKey_wfs _ old.algorithm now hwf1
    rcases hg : generateKey { s with keys := mapSet s.keys k { old with status := .rotating, rotatedAt := some now } } old.algorithm now with ⟨r, s2⟩
    rw [hg] at hwf2
    cases r <;> simp only [hg] <;> exact fun p hp => hwf2 p hp

theorem revokeKey_wfs (s : KMSState) (k now : Nat) (hwf : WFS s) :
    WFS (revokeKey s k now).2 := by
  unfold revokeKey
  rcases hm : mapFind? s.keys k with _ | md
  · simp only [hm]
    exact hwf
  · simp only [hm]
    intro p hp
    rcases mem_mapSet hp with hp1 | hp1
    · exact hwf p hp1
    · subst hp1
      rcases hwf _ (mapFind?_mem hm) with ⟨h1, h2⟩
      exact ⟨h1, h2⟩

theorem recordKeyUsage_wfs (s : KMSState) (k now : Nat) (hwf : WFS s) :
    WFS (recordKeyUsage s k now) := by
  unfold recordKeyUsage
  rcases hm : mapFind? s.keys k with _ | md
  · exact hwf
  · intro p hp
    rcases mem_mapSet hp with hp1 | hp1
    · exact hwf p hp1
    · subst hp1
      rcases hwf _ (mapFind?_mem hm) with ⟨h1, h2⟩
      exact ⟨h1, h2⟩

theorem rotateBatch_wfs (now : Nat) :
    ∀ (ids : List Nat) (s : KMSState), WFS s →
      WFS (rotateBatch s now ids).2.2 := by
  intro ids
  induction ids with
  | nil => exact fun s hwf => hwf
  | cons i rest ih =>
      intro s hwf
      have hwf1 := rotateKey_wfs s i now hwf
      rcases hr : rotateKey s i now with ⟨r, s1⟩
      rw [hr] at hwf1
      rcases hb : rotateBatch s1 now rest with ⟨ro, fa, s2⟩
      have := ih s1 hwf1
      rw [hb] at this
      cases r <;> simp only [rotateBatch, hr, hb] <;> exact this

theorem applyOp_wfs (s : KMSState) (op : KMOp) (hwf : WFS s) :
    WFS (applyOp s op) := by
  cases op with
  | generate a now => exact generateKey_wfs s a now hwf
  | rotate k now => exact rotateKey_wfs s k now hwf
  | revoke k now => exact revokeKey_wfs s k now hwf
  | recordUsage k now => exact recordKeyUsage_wfs s k now hwf
  | scheduledRotations now threat =>
      exact rotateBatch_wfs now _ s hwf
  | setPolicy a p => exact fun q hq => hwf q hq

theorem reachable_wfs {s : KMSState} (h : Reachable s) : WFS s := by
  obtain ⟨ops, rfl⟩ := h
  have init : WFS initialState := by
    intro p hp
    simp [initialState] at hp
  revert init
  generalize initialState = s0
  induction ops generalizing s0 with
  | nil => exact fun h0 => h0
  | cons op rest ih =>
      intro h0
      exact ih (applyOp s0 op) (applyOp_wfs s0 op h0)

/-! Evolution of preserved key records under key manager operations. -/

theorem recordEvolves_refl (md : KeyMetadata) : RecordEvolves md md :=
  ⟨rfl, rfl, rfl, rfl, rfl, rfl, rfl, Or.inl rfl⟩

theorem recordEvolves_trans {a b c : KeyMetadata} (h1 : RecordEvolves a b)
    (h2 : RecordEvolves b c) : RecordEvolves a c := by
  obtain ⟨i1, a1, c1, x1, q1, l1, u1, s1⟩ := h1
  obtain ⟨i2, a2, c2, x2, q2, l2, u2, s2⟩ := h2
  refine ⟨i2.trans i1, a2.trans a1, c2.trans c1, x2.trans x1, q2.trans q1,
    l2.trans l1, u2.trans u1, ?_⟩
  rcases s2 with h | h | h
  · rw [h]
    exact s1
  · exact Or.inr (Or.inl h)
  · exact Or.inr (Or.inr h)

/-- generateKey leaves every previously present key record untouched (the
fresh id is above every existing one). -/
theorem generateKey_find_eq (s : KMSState) (a : CryptoAlgorithmType)
    (now keyId : Nat) (hk : keyId < s.ctr) :
    mapFind? (generateKey s a now).2.keys keyId = mapFind? s.keys keyId := by
  unfold generateKey
  rcases hc : createKeyPair a s.ctr with e | pr
  · simp only [hc]
  · simp only [hc]
    exact mapFind?_set_ne _ _ (Nat.ne_of_lt hk)

theorem rotateKey_find_evolves (s : KMSState) (k now keyId : Nat)
    (md : KeyMetadata) (hwf : WFS s) (h : mapFind? s.keys keyId = some md) :
    ∃ md', mapFind? (rotateKey s k now).2.keys keyId = some md' ∧
      RecordEvolves md md' := by
  have hidlt : keyId < s.ctr := (hwf _ (mapFind?_mem h)).1
  unfold rotateKey
  rcases hm : mapFind? s.keys k with _ | old
  · simp only [hm]
    exact ⟨md, h, recordEvolves_refl md⟩
  · simp only [hm]
    have hstep : ∃ md1,
        mapFind? (mapSet s.keys k { old with status := .rotating, rotatedAt := some now }) keyId = some md1 ∧
        RecordEvolves md md1 := by
      by_cases hkk : keyId = k
      · subst hkk
        rw [h] at hm
        obtain rfl : md = old := by injection hm
        exact ⟨_, mapFind?_set_self _ _ _,
          ⟨rfl, rfl, rfl, rfl, rfl, rfl, rfl, Or.inr (Or.inl rfl)⟩⟩
      · rw [mapFind?_set_ne _ _ hkk]
        exact ⟨md, h, recordEvolves_refl md⟩
    obtain ⟨md1, h1, e1⟩ := hstep
    have hgen :
        mapFind? (generateKey { s with keys := mapSet s.keys k { old with status := .rotating, rotatedAt := some now } } old.algorithm now).2.keys keyId = some md1 := by
      rw [generateKey_find_eq { s with keys := mapSet s.keys k { old with status := .rotating, rotatedAt := some now } } old.algorithm now keyId hidlt]
      exact h1
    rcases hg : generateKey { s with keys := mapSet s.keys k { old with status := .rotating, rotatedAt := some now } } old.algorithm now with ⟨r, s2⟩
    rw [hg] at hgen
    cases r <;> simp only [hg] <;> exact ⟨md1, hgen, e1⟩

theorem revokeKey_find_evolves (s : KMSState) (k now keyId : Nat)
    (md : KeyMetadata) (h : mapFind? s.keys keyId = some md) :
    ∃ md', mapFind? (revokeKey s k now).2.keys keyId = some md' ∧
      RecordEvolves md md' := by
  unfold revokeKey
  rcases hm : mapFind? s.keys k with _ | old
  · simp only [hm]
    exact ⟨md, h, recordEvolves_refl md⟩
  · simp only [hm]
    by_cases hkk : keyId = k
    · subst hkk
      rw [h] at hm
      obtain rfl : md = old := by injection hm
      exact ⟨_, mapFind?_set_self _ _ _,
        ⟨rfl, rfl, rfl, rfl, rfl, rfl, rfl, Or.inr (Or.inr rfl)⟩⟩
    · rw [mapFind?_set_ne _ _ hkk]
      exact ⟨md, h, recordEvolves_refl md⟩

theorem recordKeyUsage_find_evolves (s : KMSState) (k now keyId : Nat)
    (md : KeyMetadata) (h : mapFind? s.keys keyId = some md) :
    ∃ md', mapFind? (recordKeyUsage s k now).keys keyId = some md' ∧
      RecordEvolves md md' := by
  unfold recordKeyUsage
  rcases hm : mapFind? s.keys k with _ | old
  · exact ⟨md, h, recordEvolves_refl md⟩
  · by_cases hkk : keyId = k
    · subst hkk
      rw [h] at hm
      obtain rfl : md = old := by injection hm
      exact ⟨_, mapFind?_set_self _ _ _,
        ⟨rfl, rfl, rfl, rfl, rfl, rfl, rfl, Or.inl rfl⟩⟩
    · rw [mapFind?_set_ne _ _ hkk]
      exact ⟨md, h, recordEvolves_refl md⟩

theorem rotateBatch_find_evolves (now keyId : Nat) :
    ∀ (ids : List Nat) (s : KMSState) (md : KeyMetadata), WFS s →
      mapFind? s.keys keyId = some md →
      ∃ md', mapFind? (rotateBatch s now ids).2.2.keys keyId = some md' ∧
        RecordEvolves md md' := by
  intro ids
  induction ids with
  | nil => exact fun s md _ h => ⟨md, h, recordEvolves_refl md⟩
  | cons i rest ih =>
      intro s md hwf h
      obtain ⟨md1, h1, e1⟩ := rotateKey_find_evolves s i now keyId md hwf h
      have hwf1 := rotateKey_wfs s i now hwf
      rcases hr : rotateKey s i now with ⟨r, s1⟩
      rw [hr] at h1 hwf1
      obtain ⟨md', h2, e2⟩ := ih s1 md1 hwf1 h1
      rcases hb : rotateBatch s1 now rest with ⟨ro, fa, s2⟩
      rw [hb] at h2
      cases r <;> simp only [rotateBatch, hr, hb] <;>
        exact ⟨md', h2, recordEvolves_trans e1 e2⟩

/-! Claim C8: immutable key record fields and status transitions. -/

/-- C8 counterexample: a revoked key returns to the rotating status.  The
concrete run generates an RSA-OAEP key (id 0), revokes it, then calls
rotateKey on it; rotateKey has no status guard, so the revoked key's status
becomes rotating again, contradicting the claimed active → rotating →
revoked / active → expired transition discipline. -/
theorem revoked_key_returns_to_rotating :
    (getKeyMetadata (revokeKey (generateKey initialState .RSA_OAEP 0).2 0 1).2
        0).map KeyMetadata.status = some .revoked ∧
    (getKeyMetadata (rotateKey (revokeKey
        (generateKey initialState .RSA_OAEP 0).2 0 1).2 0 2).2
        0).map KeyMetadata.status = some .rotating := by
  decide

/-- C8 as amended: every key record preserved by a key manager operation
keeps its id, algorithm, creation time, expiry timestamp, quantum-safe flag,
security level and usage role unchanged — only status, lastUsed and
rotatedAt ever mutate — and its status either stays put or moves to
rotating (rotateKey) or revoked (revokeKey) — the expired status is never
assigned.  Because rotateKey and revokeKey do not guard on the current
status, a revoked key can re-enter rotating (see the counterexample), so the
one-way active → rotating → revoked / active → expired discipline of the
original claim does not hold. -/
theorem keyRecord_invariants (s : KMSState) (op : KMOp) (keyId : Nat)
    (md md' : KeyMetadata) (hreach : Reachable s)
    (h : mapFind? s.keys keyId = some md)
    (h' : mapFind? (applyOp s op).keys keyId = some md') :
    RecordEvolves md md' := by
  have hwf := reachable_wfs hreach
  have hex : ∃ md1, mapFind? (applyOp s op).keys keyId = some md1 ∧
      RecordEvolves md md1 := by
    cases op with
    | generate a now =>
        refine ⟨md, ?_, recordEvolves_refl md⟩
        show mapFind? (generateKey s a now).2.keys keyId = some md
        rw [generateKey_find_eq s a now keyId (hwf _ (mapFind?_mem h)).1]
        exact h
    | rotate k now => exact rotateKey_find_evolves s k now keyId md hwf h
    | revoke k now => exact revokeKey_find_evolves s k now keyId md h
    | recordUsage k now =>
        exact recordKeyUsage_find_evolves s k now keyId md h
    | scheduledRotations now threat =>
        exact rotateBatch_find_evolves now keyId _ s md hwf h
    | setPolicy a p => exact ⟨md, h, recordEvolves_refl md⟩
  obtain ⟨md1, h1, e1⟩ := hex
  rw [h'] at h1
  obtain rfl : md' = md1 := by injection h1
  exact e1

/-- Witness for C8: rotating the freshly generated key 0 preserves its
identity fields and moves its status to rotating. -/
theorem keyRecord_invariants_witness :
    RecordEvolves
      { id := 0, algorithm := .RSA_OAEP, created := 0,
        expiresAt := some (90 * 24 * 60 * 60 * 1000),
        isQuantumSafe := false, securityLevel := .low,
        usage := .encryption, status := .active }
      { id := 0, algorithm := .RSA_OAEP, created := 0,
        rotatedAt := some 3, expiresAt := some (90 * 24 * 60 * 60 * 1000),
        isQuantumSafe := false, securityLevel := .low,
        usage := .encryption, status := .rotating } :=
  keyRecord_invariants ([KMOp.generate .RSA_OAEP 0].foldl applyOp initialState)
    (.rotate 0 3) 0 _ _ ⟨[KMOp.generate .RSA_OAEP 0], rfl⟩
    (by decide) (by decide)

/-! Claim C3: rotation marks the old key and creates a new one without
deleting material. -/

/-- C3: in any reachable service state, rotating a present key succeeds with
the fresh id, leaves the old key's metadata re-stamped to status rotating
with rotatedAt set, creates a new key of the same algorithm with status
active, and leaves the old key's private and public material entries in the
key store exactly as they were — rotation never deletes material. -/
theorem rotateKey_marks_old_and_creates_new (s : KMSState) (keyId now : Nat)
    (md : KeyMetadata) (hreach : Reachable s)
    (h : mapFind? s.keys keyId = some md) :
    (rotateKey s keyId now).1 = .ok s.ctr ∧
    mapFind? (rotateKey s keyId now).2.keys keyId =
      some { md with status := .rotating, rotatedAt := some now } ∧
    (∃ nmd, mapFind? (rotateKey s keyId now).2.keys s.ctr = some nmd ∧
      nmd.algorithm = md.algorithm ∧ nmd.status = .active) ∧
    getKey (rotateKey s keyId now).2 keyId = getKey s keyId ∧
    getPublicKey (rotateKey s keyId now).2 keyId = getPublicKey s keyId := by
  have hwf := reachable_wfs hreach
  have hidlt : keyId < s.ctr := (hwf _ (mapFind?_mem h)).1
  have halg : md.algorithm = .RSA_OAEP := (hwf _ (mapFind?_mem h)).2
  have hne : keyId ≠ s.ctr := Nat.ne_of_lt hidlt
  unfold rotateKey
  simp only [h]
  rw [halg]
  simp only [generateKey, createKeyPair, reduceIte]
  refine ⟨trivial, ?_, ⟨_, mapFind?_set_self _ _ _, rfl, rfl⟩, ?_, ?_⟩
  · rw [mapFind?_set_ne _ _ hne, mapFind?_set_self]
  · show mapFind? (mapSet (mapSet s.keyStore (s.ctr, false) _)
        (s.ctr, true) _) (keyId, false) = getKey s keyId
    rw [mapFind?_set_ne _ _ (by simp [hne]), mapFind?_set_ne _ _ (by simp [hne])]
    rfl
  · show mapFind? (mapSet (mapSet s.keyStore (s.ctr, false) _)
        (s.ctr, true) _) (keyId, true) = getPublicKey s keyId
    rw [mapFind?_set_ne _ _ (by simp [hne]), mapFind?_set_ne _ _ (by simp [hne])]
    rfl

/-- Witness for C3: rotating the freshly generated key 0 at time 3. -/
theorem rotateKey_marks_old_and_creates_new_witness :
    (rotateKey ([KMOp.generate .RSA_OAEP 0].foldl applyOp initialState)
        0 3).1 = .ok 1 ∧
    mapFind? (rotateKey ([KMOp.generate .RSA_OAEP 0].foldl applyOp
        initialState) 0 3).2.keys 0 =
      some { id := 0, algorithm := .RSA_OAEP, created := 0,
             rotatedAt := some 3,
             expiresAt := some (90 * 24 * 60 * 60 * 1000),
             isQuantumSafe := false, securityLevel := .low,
             usage := .encryption, status := .rotating } ∧
    (∃ nmd, mapFind? (rotateKey ([KMOp.generate .RSA_OAEP 0].foldl applyOp
        initialState) 0 3).2.keys 1 = some nmd ∧
      nmd.algorithm = CryptoAlgorithmType.RSA_OAEP ∧ nmd.status = .active) ∧
    getKey (rotateKey ([KMOp.generate .RSA_OAEP 0].foldl applyOp
        initialState) 0 3).2 0 =
      getKey ([KMOp.generate .RSA_OAEP 0].foldl applyOp initialState) 0 ∧
    getPublicKey (rotateKey ([KMOp.generate .RSA_OAEP 0].foldl applyOp
        initialState) 0 3).2 0 =
      getPublicKey ([KMOp.generate .RSA_OAEP 0].foldl applyOp initialState)
        0 :=
  rotateKey_marks_old_and_creates_new
    ([KMOp.generate .RSA_OAEP 0].foldl applyOp initialState) 0 3
    { id := 0, algorithm := .RSA_OAEP, created := 0,
      expiresAt := some (90 * 24 * 60 * 60 * 1000), isQuantumSafe := false,
      securityLevel := .low, usage := .encryption, status := .active }
    ⟨[KMOp.generate .RSA_OAEP 0], rfl⟩ (by decide)

/-! Claim C4: revocation deletes material immediately, keeps metadata. -/

/-- C4: revoking a present key succeeds; afterwards getKey and getPublicKey
both report not found while getKeyMetadata still returns the record, now
with status revoked. -/
theorem revokeKey_deletes_material_keeps_metadata (s : KMSState)
    (keyId now : Nat) (md : KeyMetadata)
    (h : mapFind? s.keys keyId = some md) :
    (revokeKey s keyId now).1 = .ok () ∧
    getKey (revokeKey s keyId now).2 keyId = none ∧
    getPublicKey (revokeKey s keyId now).2 keyId = none ∧
    getKeyMetadata (revokeKey s keyId now).2 keyId =
      some { md with status := .revoked } := by
  unfold revokeKey
  simp only [h]
  refine ⟨trivial, ?_, ?_, ?_⟩
  · show mapFind? (mapDelete (mapDelete s.keyStore (keyId, false))
        (keyId, true)) (keyId, false) = none
    rw [mapFind?_delete_ne _ (by simp), mapFind?_delete_self]
  · show mapFind? (mapDelete (mapDelete s.keyStore (keyId, false))
        (keyId, true)) (keyId, true) = none
    rw [mapFind?_delete_self]
  · show mapFind? (mapSet s.keys keyId _) keyId = _
    rw [mapFind?_set_self]

/-- Witness for C4: revoking the freshly generated key 0 at time 5. -/
theorem revokeKey_deletes_material_keeps_metadata_witness :
    (revokeKey ([KMOp.generate .RSA_OAEP 0].foldl applyOp initialState)
        0 5).1 = .ok () ∧
    getKey (revokeKey ([KMOp.generate .RSA_OAEP 0].foldl applyOp
        initialState) 0 5).2 0 = none ∧
    getPublicKey (revokeKey ([KMOp.generate .RSA_OAEP 0].foldl applyOp
        initialState) 0 5).2 0 = none ∧
    getKeyMetadata (revokeKey ([KMOp.generate .RSA_OAEP 0].foldl applyOp
        initialState) 0 5).2 0 =
      some { id := 0, algorithm := .RSA_OAEP, created := 0,
             expiresAt := some (90 * 24 * 60 * 60 * 1000),
             isQuantumSafe := false, securityLevel := .low,
             usage := .encryption, status := .revoked } :=
  revokeKey_deletes_material_keeps_metadata
    ([KMOp.generate .RSA_OAEP 0].foldl applyOp initialState) 0 5
    { id := 0, algorithm := .RSA_OAEP, created := 0,
      expiresAt := some (90 * 24 * 60 * 60 * 1000), isQuantumSafe := false,
      securityLevel := .low, usage := .encryption, status := .active }
    (by decide)

/-! Claim C7: batch rotation isolates per-key failures. -/

/-- Shape of the batch loop: every flagged key contributes exactly one entry
(either a rotated id or a failure record naming the key). -/
theorem rotateBatch_shape (now : Nat) :
    ∀ (ids : List Nat) (s : KMSState),
      (rotateBatch s now ids).1.length +
        (rotateBatch s now ids).2.1.length = ids.length ∧
      ∀ p ∈ (rotateBatch s now ids).2.1, p.1 ∈ ids := by
  intro ids
  induction ids with
  | nil => exact fun s => ⟨rfl, by simp [rotateBatch]⟩
  | cons i rest ih =>
      intro s
      rcases hr : rotateKey s i now with ⟨r, s1⟩
      rcases hb : rotateBatch s1 now rest with ⟨ro, fa, s2⟩
      have hih := ih s1
      rw [hb] at hih
      have hlen : ro.length + fa.length = rest.length := hih.1
      have hmem : ∀ p ∈ fa, p.1 ∈ rest := fun p hp => hih.2 p hp
      cases r with
      | ok n =>
          simp only [rotateBatch, hr, hb]
          refine ⟨?_, ?_⟩
          · simp only [List.length_cons]
            omega
          · intro p hp
            exact List.mem_cons_of_mem _ (hmem p hp)
      | error e =>
          simp only [rotateBatch, hr, hb]
          refine ⟨?_, ?_⟩
          · simp only [List.length_cons]
            omega
          · intro p hp
            rcases List.mem_cons.mp hp with hp1 | hp1
            · subst hp1
              exact List.mem_cons_self _ _
            · exact List.mem_cons_of_mem _ (hmem p hp1)

/-- C7: performScheduledRotations attempts every flagged key, one result
entry per key, failures identifying their key — and in the three-key
scenario where the second rotation fails, the batch still rotates the other
two and reports exactly one failure naming the second key. -/
theorem performScheduledRotations_partial_failure :
    (∀ (s : KMSState) (now threat : Nat),
      (performScheduledRotations s now threat).1.length +
        (performScheduledRotations s now threat).2.1.length =
        (checkKeyRotationNeeds s now threat).length ∧
      ∀ p ∈ (performScheduledRotations s now threat).2.1,
        p.1 ∈ checkKeyRotationNeeds s now threat) ∧
    (∀ (s : KMSState) (now threat a b c n1 : Nat) (e : KMError) (n3 : Nat),
      checkKeyRotationNeeds s now threat = [a, b, c] →
      (rotateKey s a now).1 = .ok n1 →
      (rotateKey (rotateKey s a now).2 b now).1 = .error e →
      (rotateKey (rotateKey (rotateKey s a now).2 b now).2 c now).1 =
        .ok n3 →
      (performScheduledRotations s now threat).1 = [n1, n3] ∧
      (performScheduledRotations s now threat).2.1 = [(b, e)]) := by
  constructor
  · intro s now threat
    exact rotateBatch_shape now (checkKeyRotationNeeds s now threat) s
  · intro s now threat a b c n1 e n3 hids h1 h2 h3
    rcases hr1 : rotateKey s a now with ⟨r1, s1⟩
    rw [hr1] at h1 h2 h3
    simp only at h1 h2 h3
    subst h1
    rcases hr2 : rotateKey s1 b now with ⟨r2, s2⟩
    rw [hr2] at h2 h3
    simp only at h2 h3
    subst h2
    rcases hr3 : rotateKey s2 c now with ⟨r3, s3⟩
    rw [hr3] at h3
    simp only at h3
    subst h3
    simp [performScheduledRotations, hids, rotateBatch, hr1, hr2, hr3]

/-- Witness for C7: in threeKeyState all three expired keys are flagged, the
middle ML-KEM-768 key's rotation fails in createKeyPair, and the sweep still
rotates the two RSA keys, reporting exactly one failure naming key 1. -/
theorem performScheduledRotations_partial_failure_witness :
    (performScheduledRotations threeKeyState 11 0).1 = [3, 5] ∧
    (performScheduledRotations threeKeyState 11 0).2.1 =
      [(1, .notImplemented .ML_KEM_768)] :=
  performScheduledRotations_partial_failure.2 threeKeyState 11 0 0 1 2 3
    (.notImplemented .ML_KEM_768) 5 (by decide) (by decide) (by decide)
    (by decide)

/-! Claim C10: generateKey succeeds only for RSA-OAEP. -/

/-- C10: for every algorithm other than RSA-OAEP, generateKey fails with the
"not implemented yet" error of createKeyPair before any state change — the
key table, the key store and the event stream are left exactly as they
were. -/
theorem generateKey_only_rsa (s : KMSState) (algorithm : CryptoAlgorithmType)
    (now : Nat) (h : algorithm ≠ .RSA_OAEP) :
    (generateKey s algorithm now).1 = .error (.notImplemented algorithm) ∧
    (generateKey s algorithm now).2.keys = s.keys ∧
    (generateKey s algorithm now).2.keyStore = s.keyStore ∧
    (generateKey s algorithm now).2.events = s.events := by
  unfold generateKey
  simp [createKeyPair, h]

/-- Witness for C10 at the ML-KEM-768 algorithm on a fresh service. -/
theorem generateKey_only_rsa_witness :
    (generateKey initialState .ML_KEM_768 7).1 =
      .error (.notImplemented .ML_KEM_768) ∧
    (generateKey initialState .ML_KEM_768 7).2.keys = initialState.keys ∧
    (generateKey initialState .ML_KEM_768 7).2.keyStore =
      initialState.keyStore ∧
    (generateKey initialState .ML_KEM_768 7).2.events =
      initialState.events :=
  generateKey_only_rsa initialState .ML_KEM_768 7 (by decide)

end Chat
